import Mathlib

/-!
Verification development for the quantum state-evolution engine of the
poton-QSTP repository (`src/utils/complex-utils`, `src/quantum/qubit.ts`,
`src/quantum/quantum-gates.ts`, `src/quantum/state-vector.ts`,
`src/quantum/quantum-circuit`).

Embedding conventions:
* JavaScript double arithmetic on the ordinary (finite, non-exceptional)
  path is idealised as exact real arithmetic over `ℝ`; `Math.sqrt` is
  `Real.sqrt`, `Math.random()` becomes an explicit parameter `r` with the
  contract `0 ≤ r < 1`.
* Where the observable behavior of the source depends on IEEE-754 special
  values (NaN and the infinities) - the unguarded `1 / Math.sqrt(0)` in
  `StateVector.measure`, and the calls that pass a `Complex` object where
  `scale` expects a `number` scalar (JavaScript coerces such an object to
  NaN) - a dedicated extended-value type `EF` (finite real, +inf, -inf,
  NaN) with IEEE-754 arithmetic rules is used; definitions on that layer
  carry the suffix `F`.
* `throw` is modelled by `Except String`; a thrown error is `.error msg`
  and mutation never happens on an error path (matching the source, where
  every `throw` precedes the first mutation).
* Qubit indices are modelled as `ℕ`, so the `index < 0` half of the
  source's range checks is vacuous and only `index >= numQubits` remains.
-/

namespace QSTP

/-- Complex number representation from `src/utils/complex-utils`
(interface `Complex` with fields `real`, `imag`). -/
structure Complex where
  real : ℝ
  imag : ℝ

/-- Constructor `complex(real, imag)` from complex-utils. -/
def complex (real imag : ℝ) : Complex := ⟨real, imag⟩

/-- Constant `ZERO = complex(0, 0)` from complex-utils. -/
def ZERO : Complex := complex 0 0

/-- Constant `ONE = complex(1, 0)` from complex-utils. -/
def ONE : Complex := complex 1 0

/-- Constant `I = complex(0, 1)` from complex-utils. -/
def I : Complex := complex 0 1

/-- Operation `add` from complex-utils. -/
def add (a b : Complex) : Complex := ⟨a.real + b.real, a.imag + b.imag⟩

/-- Operation `subtract` from complex-utils. -/
def subtract (a b : Complex) : Complex := ⟨a.real - b.real, a.imag - b.imag⟩

/-- Operation `multiply` from complex-utils: the standard complex product. -/
def multiply (a b : Complex) : Complex :=
  ⟨a.real * b.real - a.imag * b.imag, a.real * b.imag + a.imag * b.real⟩

/-- Operation `scale` from complex-utils; its declared signature takes a
real (`number`) scalar and multiplies both components by it. -/
def scale (a : Complex) (scalar : ℝ) : Complex :=
  ⟨a.real * scalar, a.imag * scalar⟩

/-- Operation `conjugate` from complex-utils. -/
def conjugate (a : Complex) : Complex := ⟨a.real, -a.imag⟩

/-- Operation `magnitude` from complex-utils:
`Math.sqrt(a.real * a.real + a.imag * a.imag)`. -/
noncomputable def magnitude (a : Complex) : ℝ :=
  Real.sqrt (a.real * a.real + a.imag * a.imag)

/-- Qubit state from `src/quantum/qubit.ts`: a pair of complex amplitudes
`_alpha` (for the zero ket) and `_beta` (for the one ket). -/
structure Qubit where
  alpha : Complex
  beta : Complex

namespace Qubit

/-- Method `normalize()` of `Qubit`: computes
`norm = Math.sqrt(magnitude(alpha) ** 2 + magnitude(beta) ** 2)` and, only
when `norm > 0`, rescales both amplitudes by `1 / norm`. -/
noncomputable def normalize (q : Qubit) : Qubit :=
  if 0 < Real.sqrt (magnitude q.alpha ^ 2 + magnitude q.beta ^ 2) then
    ⟨scale q.alpha (1 / Real.sqrt (magnitude q.alpha ^ 2 + magnitude q.beta ^ 2)),
      scale q.beta (1 / Real.sqrt (magnitude q.alpha ^ 2 + magnitude q.beta ^ 2))⟩
  else q

/-- Method `setState(alpha, beta)` of `Qubit`: overwrites both amplitudes
(independently of the previous state) and renormalizes. -/
noncomputable def setState (alpha beta : Complex) : Qubit :=
  normalize ⟨alpha, beta⟩

/-- Constructor `new Qubit(alpha, beta)`: stores the amplitudes and
immediately normalizes, exactly like `setState`. -/
noncomputable def mk' (alpha beta : Complex) : Qubit := setState alpha beta

/-- Method `probabilityZero()`: `magnitude(alpha) ** 2`. -/
noncomputable def probabilityZero (q : Qubit) : ℝ := magnitude q.alpha ^ 2

/-- Method `probabilityOne()`: `magnitude(beta) ** 2`. -/
noncomputable def probabilityOne (q : Qubit) : ℝ := magnitude q.beta ^ 2

/-- Method `measure()` of `Qubit`, with the `Math.random()` draw passed in
as `r`: if `r < probabilityZero()` collapse to exact zero ket and return 0,
else collapse to exact one ket and return 1. -/
noncomputable def measure (q : Qubit) (r : ℝ) : ℕ × Qubit :=
  if r < q.probabilityZero then (0, setState ONE ZERO)
  else (1, setState ZERO ONE)

end Qubit

/-- Gate descriptor from `src/quantum/quantum-gates.ts` (interface
`QuantumGate`): a name, an arity, and a complex matrix. The `apply`
methods are modelled as standalone functions below. -/
structure QGate where
  name : String
  numQubits : ℕ
  matrix : List (List Complex)

/-- Helper: read entry `matrix[i][j]` of a gate matrix. -/
def entry (m : List (List Complex)) (i j : ℕ) : Complex :=
  (m.getD i []).getD j ZERO

/-- Gate constant `H` (class `HadamardGate`), whose matrix entries are
built with `scale(ONE, 1 / Math.sqrt(2))` and `scale(ONE, -1 / Math.sqrt(2))`. -/
noncomputable def HGate : QGate :=
  ⟨"H", 1,
    [[scale ONE (1 / Real.sqrt 2), scale ONE (1 / Real.sqrt 2)],
     [scale ONE (1 / Real.sqrt 2), scale ONE (-1 / Real.sqrt 2)]]⟩

/-- Gate constant `X` (class `PauliXGate`). -/
def XGate : QGate := ⟨"X", 1, [[ZERO, ONE], [ONE, ZERO]]⟩

/-- Gate constant `Z` (class `PauliZGate`), with `scale(ONE, -1)` in the
bottom-right entry. -/
def ZGate : QGate := ⟨"Z", 1, [[ONE, ZERO], [ZERO, scale ONE (-1)]]⟩

/-- Method `apply` of the abstract class `SingleQubitGate`: multiplies the
2x2 gate matrix into the amplitude pair with `multiply`/`add` and stores
the result with `setState` (which renormalizes). The `qubits.length !== 1`
arity check is vacuous here because the model passes exactly one qubit. -/
noncomputable def singleGateApply (g : QGate) (q : Qubit) : Qubit :=
  Qubit.setState
    (add (multiply (entry g.matrix 0 0) q.alpha) (multiply (entry g.matrix 0 1) q.beta))
    (add (multiply (entry g.matrix 1 0) q.alpha) (multiply (entry g.matrix 1 1) q.beta))

/-- Method `apply` of `CNOTGate` (local Circuit/Qubit model): when the
control's one-probability `p1` is positive, blend the target's amplitudes
componentwise with interpolation factor `p1` and store them with
`setState`; otherwise leave the target untouched. The control qubit is
never written. The blend arithmetic is idealised as exact reals; the
theorems below rely only on the `p1 > 0` guard and on the control
component, both of which are exact at the IEEE level as well. -/
noncomputable def cnotApply (control target : Qubit) : Qubit × Qubit :=
  if 0 < control.probabilityOne then
    let p1 := control.probabilityOne
    (control,
      Qubit.setState
        (complex (target.alpha.real * (1 - p1) + target.beta.real * p1)
          (target.alpha.imag * (1 - p1) + target.beta.imag * p1))
        (complex (target.beta.real * (1 - p1) + target.alpha.real * p1)
          (target.beta.imag * (1 - p1) + target.alpha.imag * p1)))
  else (control, target)

/-- Extended JavaScript number: a finite double (idealised as a real), the
two signed infinities, or NaN. Used on the code paths whose observable
behavior depends on IEEE-754 special values. -/
inductive EF where
  | fin : ℝ → EF
  | pinf : EF
  | ninf : EF
  | nan : EF

namespace EF

/-- IEEE-754 addition on extended values. -/
def add : EF → EF → EF
  | nan, _ => nan
  | _, nan => nan
  | fin x, fin y => fin (x + y)
  | fin _, pinf => pinf
  | pinf, fin _ => pinf
  | pinf, pinf => pinf
  | fin _, ninf => ninf
  | ninf, fin _ => ninf
  | ninf, ninf => ninf
  | pinf, ninf => nan
  | ninf, pinf => nan

/-- IEEE-754 subtraction on extended values. -/
def sub : EF → EF → EF
  | nan, _ => nan
  | _, nan => nan
  | fin x, fin y => fin (x - y)
  | fin _, pinf => ninf
  | pinf, fin _ => pinf
  | pinf, pinf => nan
  | fin _, ninf => pinf
  | ninf, fin _ => ninf
  | ninf, ninf => nan
  | pinf, ninf => pinf
  | ninf, pinf => ninf

/-- IEEE-754 multiplication on extended values; in particular
`0 * inf = NaN` and anything times NaN is NaN. -/
noncomputable def mul : EF → EF → EF
  | nan, _ => nan
  | _, nan => nan
  | fin x, fin y => fin (x * y)
  | fin x, pinf => if x = 0 then nan else if 0 < x then pinf else ninf
  | pinf, fin x => if x = 0 then nan else if 0 < x then pinf else ninf
  | fin x, ninf => if x = 0 then nan else if 0 < x then ninf else pinf
  | ninf, fin x => if x = 0 then nan else if 0 < x then ninf else pinf
  | pinf, pinf => pinf
  | ninf, ninf => pinf
  | pinf, ninf => ninf
  | ninf, pinf => ninf

/-- IEEE-754 division on extended values; in particular `1 / 0 = +inf`
(JavaScript's positive zero) and `0 / 0 = NaN`. -/
noncomputable def div : EF → EF → EF
  | nan, _ => nan
  | _, nan => nan
  | fin x, fin y =>
    if y = 0 then (if x = 0 then nan else if 0 < x then pinf else ninf) else fin (x / y)
  | fin _, pinf => fin 0
  | fin _, ninf => fin 0
  | pinf, fin y => if 0 ≤ y then pinf else ninf
  | ninf, fin y => if 0 ≤ y then ninf else pinf
  | pinf, pinf => nan
  | pinf, ninf => nan
  | ninf, pinf => nan
  | ninf, ninf => nan

/-- IEEE-754 square root on extended values; the square root of a negative
number or of NaN is NaN. -/
noncomputable def sqrt : EF → EF
  | nan => nan
  | pinf => pinf
  | ninf => nan
  | fin x => if x < 0 then nan else fin (Real.sqrt x)

/-- IEEE-754 less-than comparison; every comparison against NaN is false. -/
noncomputable def ltb : EF → EF → Bool
  | nan, _ => false
  | _, nan => false
  | fin x, fin y => decide (x < y)
  | fin _, pinf => true
  | fin _, ninf => false
  | pinf, _ => false
  | ninf, fin _ => true
  | ninf, pinf => true
  | ninf, ninf => false

end EF

/-- Complex value whose components are extended JavaScript numbers. -/
structure CF where
  real : EF
  imag : EF

/-- Injection of an ideal complex value into the extended layer. -/
def toCF (a : Complex) : CF := ⟨EF.fin a.real, EF.fin a.imag⟩

/-- Value passed dynamically to the `scalar` parameter of `scale`: either a
genuine JavaScript number or a `Complex` object (as at the call sites in
`StateVector.applySingleQubitGate`, `applyTwoQubitGate` and `CZGate.apply`). -/
inductive JSArg where
  | num : EF → JSArg
  | obj : CF → JSArg

/-- JavaScript ToNumber coercion of a `scale` scalar argument: a number is
itself; a plain object (here a `Complex`) converts to NaN. -/
def toNumber : JSArg → EF
  | JSArg.num v => v
  | JSArg.obj _ => EF.nan

/-- Operation `scale` from complex-utils under dynamic JavaScript
semantics: both components are multiplied by the coerced scalar, so a
`Complex` second argument turns both components into NaN. -/
noncomputable def scaleF (a : CF) (scalar : JSArg) : CF :=
  ⟨EF.mul a.real (toNumber scalar), EF.mul a.imag (toNumber scalar)⟩

/-- Operation `add` from complex-utils on the extended layer. -/
def addF (a b : CF) : CF := ⟨EF.add a.real b.real, EF.add a.imag b.imag⟩

/-- Operation `magnitude` from complex-utils on the extended layer. -/
noncomputable def magnitudeF (a : CF) : EF :=
  EF.sqrt (EF.add (EF.mul a.real a.real) (EF.mul a.imag a.imag))

/-- Expression `magnitude(a) ** 2` as the source writes it. -/
noncomputable def msqF (a : CF) : EF := EF.mul (magnitudeF a) (magnitudeF a)

/-- Qubit over extended values, for the local-model code paths that can
produce NaN (the CZ blend). -/
structure QubitF where
  alpha : CF
  beta : CF

namespace QubitF

/-- Method `normalize()` of `Qubit` on the extended layer: guard `norm > 0`
(false for NaN) and rescale by the number `1 / norm`. -/
noncomputable def normalize (q : QubitF) : QubitF :=
  if EF.ltb (EF.fin 0) (EF.sqrt (EF.add (msqF q.alpha) (msqF q.beta))) then
    ⟨scaleF q.alpha (JSArg.num (EF.div (EF.fin 1)
        (EF.sqrt (EF.add (msqF q.alpha) (msqF q.beta))))),
      scaleF q.beta (JSArg.num (EF.div (EF.fin 1)
        (EF.sqrt (EF.add (msqF q.alpha) (msqF q.beta)))))⟩
  else q

/-- Method `setState` of `Qubit` on the extended layer. -/
noncomputable def setState (a b : CF) : QubitF := normalize ⟨a, b⟩

/-- Method `probabilityOne()` of `Qubit` on the extended layer. -/
noncomputable def probabilityOne (q : QubitF) : EF := msqF q.beta

end QubitF

/-- Method `apply` of `CZGate` (local model): when the control's
one-probability is positive, the new beta is `scale(target.beta,
complex(1 - 2 * p1, 0))` - note the `Complex` second argument, which the
dynamic semantics of `scale` coerces to NaN - stored via `setState`. The
control qubit is never written. -/
noncomputable def czApplyF (control target : QubitF) : QubitF × QubitF :=
  if EF.ltb (EF.fin 0) (control.probabilityOne) then
    (control,
      QubitF.setState target.alpha
        (scaleF target.beta
          (JSArg.obj ⟨EF.sub (EF.fin 1) (EF.mul (EF.fin 2) control.probabilityOne),
            EF.fin 0⟩)))
  else (control, target)

/-- State-vector simulator state from `src/quantum/state-vector.ts`:
`_numQubits` plus the amplitude array, index = bitmask with bit k = qubit k. -/
structure SV where
  numQubits : ℕ
  amps : List Complex

/-- Getter `dimension`: `1 << numQubits`. -/
def SV.dimension (s : SV) : ℕ := 1 <<< s.numQubits

/-- Expression `(i >> qubitIndex) & 1` extracting one bit of a basis index. -/
def bitAt (i q : ℕ) : ℕ := (i >>> q) &&& 1

/-- Constructor `new StateVector(numQubits)`: rejects more than 15 qubits,
otherwise allocates `2^numQubits` zero amplitudes and sets slot 0 to `ONE`. -/
def mkStateVector (numQubits : ℕ) : Except String SV :=
  if numQubits > 15 then
    Except.error "StateVector simulator supports up to 15 qubits due to memory constraints"
  else
    Except.ok ⟨numQubits, (List.replicate (1 <<< numQubits) ZERO).set 0 ONE⟩

/-- Loop in `setState` that sums `magnitude(amplitude) ** 2` over the
supplied vector. -/
noncomputable def normSum (v : List Complex) : ℝ :=
  (v.map (fun a => magnitude a ^ 2)).sum

/-- Method `setState(stateVector)` of `StateVector`: requires the supplied
length to equal the dimension and the total squared magnitude to be within
`1e-10` of 1, then replaces the amplitudes. -/
noncomputable def SV.setState (s : SV) (v : List Complex) : Except String SV :=
  if v.length ≠ s.dimension then
    Except.error "State vector must have the required dimension"
  else if |normSum v - 1| > 1e-10 then
    Except.error "State vector must be normalized"
  else
    Except.ok ⟨s.numQubits, v⟩

/-- Method `measure(qubitIndex)` of `StateVector` in the exact-real
idealisation, with the `Math.random()` draw passed in as `r`: compute the
probability of the one outcome, pick `result` by comparing `r` against it,
copy the amplitudes consistent with `result` (zeroing the rest) while
summing their probability mass, then rescale every slot by
`1 / Math.sqrt(mass)`. -/
noncomputable def SV.measure (s : SV) (q : ℕ) (r : ℝ) : Except String (ℕ × SV) :=
  if q ≥ s.numQubits then
    Except.error "Invalid qubit index"
  else
    let prob1 := ∑ i ∈ Finset.range s.dimension,
      if bitAt i q = 1 then magnitude (s.amps.getD i ZERO) ^ 2 else 0
    let result := if r < prob1 then 1 else 0
    let mass := ∑ i ∈ Finset.range s.dimension,
      if bitAt i q = result then magnitude (s.amps.getD i ZERO) ^ 2 else 0
    Except.ok (result, ⟨s.numQubits,
      (List.range s.dimension).map (fun i =>
        scale (if bitAt i q = result then s.amps.getD i ZERO else ZERO)
          (1 / Real.sqrt mass))⟩)

/-- State-vector state over extended values, for the gate-application code
paths whose `scale` calls receive `Complex` scalars. -/
structure SVF where
  numQubits : ℕ
  amps : List CF

/-- Getter `dimension` on the extended layer. -/
def SVF.dimension (s : SVF) : ℕ := 1 <<< s.numQubits

/-- Constant `ZERO` as stored in the extended amplitude array. -/
def ZEROF : CF := toCF ZERO

/-- Injection of an ideal state vector into the extended layer. -/
def toSVF (s : SV) : SVF := ⟨s.numQubits, s.amps.map toCF⟩

/-- Method `applySingleQubitGate(gate, qubitIndex)` of `StateVector` under
dynamic JavaScript semantics: validates arity and index, then accumulates
into a fresh zero-filled array; every contribution is
`scale(stateVector[i], gate.matrix[..][..])`, whose second argument is a
`Complex` object. -/
noncomputable def applySingleQubitGateF (g : QGate) (q : ℕ) (s : SVF) :
    Except String SVF :=
  if g.numQubits ≠ 1 then
    Except.error "Expected single-qubit gate"
  else if q ≥ s.numQubits then
    Except.error "Invalid qubit index"
  else
    Except.ok ⟨s.numQubits,
      (List.range s.dimension).foldl (fun acc i =>
        let flipped := i ^^^ (1 <<< q)
        if bitAt i q = 0 then
          let acc1 := acc.set i (addF (acc.getD i ZEROF)
            (scaleF (s.amps.getD i ZEROF) (JSArg.obj (toCF (entry g.matrix 0 0)))))
          acc1.set flipped (addF (acc1.getD flipped ZEROF)
            (scaleF (s.amps.getD i ZEROF) (JSArg.obj (toCF (entry g.matrix 1 0)))))
        else
          let acc1 := acc.set flipped (addF (acc.getD flipped ZEROF)
            (scaleF (s.amps.getD i ZEROF) (JSArg.obj (toCF (entry g.matrix 0 1)))))
          acc1.set i (addF (acc1.getD i ZEROF)
            (scaleF (s.amps.getD i ZEROF) (JSArg.obj (toCF (entry g.matrix 1 1))))))
        (List.replicate s.dimension ZEROF)⟩

/-- Method `applyTwoQubitGate(gate, [q1, q2])` of `StateVector` under
dynamic JavaScript semantics: validates arity, range and distinctness,
orders the pair, and contracts the 4x4 matrix over every basis index; the
bit-clearing `i & ~((1 << control) | (1 << target))` is `Nat.ldiff` here. -/
noncomputable def applyTwoQubitGateF (g : QGate) (q1 q2 : ℕ) (s : SVF) :
    Except String SVF :=
  if g.numQubits ≠ 2 then
    Except.error "Expected two-qubit gate"
  else if q1 ≥ s.numQubits ∨ q2 ≥ s.numQubits then
    Except.error "Invalid qubit indices"
  else if q1 = q2 then
    Except.error "Cannot apply two-qubit gate to the same qubit"
  else
    let control := if q1 < q2 then q1 else q2
    let target := if q1 < q2 then q2 else q1
    Except.ok ⟨s.numQubits,
      (List.range s.dimension).foldl (fun acc i =>
        let stateIndex := (bitAt i control <<< 1) ||| bitAt i target
        (List.range 4).foldl (fun acc2 j =>
          let newState := (Nat.ldiff i ((1 <<< control) ||| (1 <<< target)))
            ||| (((j >>> 1) &&& 1) <<< control) ||| ((j &&& 1) <<< target)
          acc2.set newState (addF (acc2.getD newState ZEROF)
            (scaleF (s.amps.getD i ZEROF) (JSArg.obj (toCF (entry g.matrix stateIndex j))))))
          acc)
        (List.replicate s.dimension ZEROF)⟩

/-- Method `measure(qubitIndex)` of `StateVector` on the extended layer,
keeping the IEEE-754 behavior of the final rescaling `1 / Math.sqrt(mass)`
(which is `+inf` when the surviving mass is zero, and turns every zero
amplitude into NaN). -/
noncomputable def measureF (s : SVF) (q : ℕ) (r : ℝ) : Except String (ℕ × SVF) :=
  if q ≥ s.numQubits then
    Except.error "Invalid qubit index"
  else
    let prob1 := (List.range s.dimension).foldl (fun acc i =>
      if bitAt i q = 1 then EF.add acc (msqF (s.amps.getD i ZEROF)) else acc) (EF.fin 0)
    let result := if EF.ltb (EF.fin r) prob1 then 1 else 0
    let mass := (List.range s.dimension).foldl (fun acc i =>
      if bitAt i q = result then EF.add acc (msqF (s.amps.getD i ZEROF)) else acc) (EF.fin 0)
    Except.ok (result, ⟨s.numQubits,
      ((List.range s.dimension).map (fun i =>
        if bitAt i q = result then s.amps.getD i ZEROF else ZEROF)).map (fun a =>
          scaleF a (JSArg.num (EF.div (EF.fin 1) (EF.sqrt mass))))⟩)

/-- Circuit state from `src/quantum/quantum-circuit`: an array of qubits
and the recorded operation list. -/
structure QuantumCircuit where
  qubits : List Qubit
  operations : List (QGate × List ℕ)

/-- Method `addGate(gate, qubits)` of `QuantumCircuit`: rejects an index
list whose length differs from the gate arity, rejects any index outside
`[0, numQubits)`, and otherwise appends the operation to the list. -/
def addGate (c : QuantumCircuit) (gate : QGate) (qs : List ℕ) :
    Except String QuantumCircuit :=
  if qs.length ≠ gate.numQubits then
    Except.error "Gate arity does not match the number of provided qubits"
  else if qs.any (fun i => c.qubits.length ≤ i) then
    Except.error "Invalid qubit index"
  else
    Except.ok ⟨c.qubits, c.operations ++ [(gate, qs)]⟩

/-- Helper: Boolean error discriminator for `Except`. -/
def isErr {ε α : Type} : Except ε α → Bool
  | Except.error _ => true
  | Except.ok _ => false

/-- Concrete two-qubit circuit used by the C7 witness. -/
def cEx : QuantumCircuit := ⟨[⟨ONE, ZERO⟩, ⟨ONE, ZERO⟩], []⟩

/-- Round-to-nearest at binary64 precision (53 significant bits), for
positive normal values: the significand `x * 2^(52 - e)` with
`e = floor(log2 x)` is rounded to the nearest integer. Mathlib's `round`
rounds half away from zero, while IEEE rounds half to even; the two agree
everywhere a tie does not occur, and no tie occurs on any value this file
evaluates (all the tie candidates would need an exactly representable
half-ulp, which the integer-square bounds below exclude). -/
noncomputable def rnd (x : ℝ) : ℝ :=
  (round (x * (2:ℝ) ^ ((52:ℤ) - Int.log 2 x)) : ℤ) * (2:ℝ) ^ (Int.log 2 x - (52:ℤ))

/-- Operation `magnitude` from complex-utils in the binary64 model: each
multiplication, the addition and `Math.sqrt` (correctly rounded) round. -/
noncomputable def magnitudeFP (a : Complex) : ℝ :=
  rnd (Real.sqrt (rnd (rnd (a.real * a.real) + rnd (a.imag * a.imag))))

/-- Expression `magnitude(a) ** 2` in the binary64 model. -/
noncomputable def msqFP (a : Complex) : ℝ := rnd (magnitudeFP a * magnitudeFP a)

/-- Operation `scale` (real scalar) in the binary64 model. -/
noncomputable def scaleFP (a : Complex) (scalar : ℝ) : Complex :=
  ⟨rnd (a.real * scalar), rnd (a.imag * scalar)⟩

/-- Method `measure(qubitIndex)` of `StateVector` in the binary64 model:
identical control flow to `SV.measure`, with every floating-point
operation rounded. The zero-surviving-mass branch (division by zero,
infinities, NaN) is modelled separately by `measureF`; on this model's
inputs the mass is positive. -/
noncomputable def measureFP (s : SV) (q : ℕ) (r : ℝ) : Except String (ℕ × SV) :=
  if q ≥ s.numQubits then
    Except.error "Invalid qubit index"
  else
    let prob1 := (List.range s.dimension).foldl (fun acc i =>
      if bitAt i q = 1 then rnd (acc + msqFP (s.amps.getD i ZERO)) else acc) 0
    let result := if r < prob1 then 1 else 0
    let mass := (List.range s.dimension).foldl (fun acc i =>
      if bitAt i q = result then rnd (acc + msqFP (s.amps.getD i ZERO)) else acc) 0
    Except.ok (result, ⟨s.numQubits,
      (List.range s.dimension).map (fun i =>
        scaleFP (if bitAt i q = result then s.amps.getD i ZERO else ZERO)
          (rnd (1 / rnd (Real.sqrt mass))))⟩)

/-- Helper: `magnitude(a) ** 2` evaluates to the sum of squared components. -/
theorem magnitude_sq (a : Complex) :
    magnitude a ^ 2 = a.real ^ 2 + a.imag ^ 2 := by
  have h : (0:ℝ) ≤ a.real * a.real + a.imag * a.imag :=
    add_nonneg (mul_self_nonneg _) (mul_self_nonneg _)
  rw [magnitude, Real.sq_sqrt h]; ring

theorem magnitude_sq_scale (a : Complex) (s : ℝ) :
    magnitude (scale a s) ^ 2 = s ^ 2 * magnitude a ^ 2 := by
  simp only [magnitude_sq, scale]; ring

theorem magnitude_sq_zero : magnitude ZERO ^ 2 = 0 := by
  simp [magnitude_sq, ZERO, complex]

/-- Helper: collapsing to the exact zero ket renormalizes to itself. -/
theorem setState_one_zero : Qubit.setState ONE ZERO = ⟨ONE, ZERO⟩ := by
  have h1 : magnitude ONE ^ 2 = 1 := by simp [magnitude_sq, ONE, complex]
  simp only [Qubit.setState, Qubit.normalize, h1, magnitude_sq_zero, add_zero, Real.sqrt_one]
  norm_num [scale, ONE, ZERO, complex]

/-- Helper: collapsing to the exact one ket renormalizes to itself. -/
theorem setState_zero_one : Qubit.setState ZERO ONE = ⟨ZERO, ONE⟩ := by
  have h1 : magnitude ONE ^ 2 = 1 := by simp [magnitude_sq, ONE, complex]
  simp only [Qubit.setState, Qubit.normalize, h1, magnitude_sq_zero, zero_add, Real.sqrt_one]
  norm_num [scale, ONE, ZERO, complex]

/-- Helper: a Qubit measurement always leaves a state of squared norm 1. -/
theorem measure_normSq (q : Qubit) (r : ℝ) :
    (q.measure r).2.probabilityZero + (q.measure r).2.probabilityOne = 1 := by
  have h1 : magnitude ONE ^ 2 = 1 := by simp [magnitude_sq, ONE, complex]
  unfold Qubit.measure
  by_cases hlt : r < q.probabilityZero
  · rw [if_pos hlt]
    simp [setState_one_zero, Qubit.probabilityZero, Qubit.probabilityOne, h1, magnitude_sq_zero]
  · rw [if_neg hlt]
    simp [setState_zero_one, Qubit.probabilityZero, Qubit.probabilityOne, h1, magnitude_sq_zero]

/-- Helper: `setState(ZERO, ZERO)` skips renormalization (the norm is not
positive) and leaves the degenerate zero state in place. -/
theorem setState_zero_zero : Qubit.setState ZERO ZERO = ⟨ZERO, ZERO⟩ := by
  simp [Qubit.setState, Qubit.normalize, magnitude_sq_zero, Real.sqrt_zero]

/-- C8: in the local Circuit/Qubit model, a CNOT whose control qubit has
`probabilityOne() = 0` leaves the target qubit's alpha and beta amplitudes
numerically unchanged (the guard `p1 > 0` fails and the blend is skipped). -/
theorem claim_C8_cnot_zero_control_identity (c t : Qubit)
    (h : c.probabilityOne = 0) : cnotApply c t = (c, t) := by
  unfold cnotApply
  rw [h]
  simp

/-- Witness for C8 at a concrete input: the exact zero-ket control has
one-probability 0 and CNOT leaves the one-ket target unchanged. -/
theorem claim_C8_cnot_zero_control_identity_witness :
    Qubit.probabilityOne ⟨ONE, ZERO⟩ = 0 ∧
      cnotApply ⟨ONE, ZERO⟩ ⟨ZERO, ONE⟩ = (⟨ONE, ZERO⟩, ⟨ZERO, ONE⟩) := by
  have h : Qubit.probabilityOne ⟨ONE, ZERO⟩ = 0 := by
    simp only [Qubit.probabilityOne]
    exact magnitude_sq_zero
  exact ⟨h, claim_C8_cnot_zero_control_identity ⟨ONE, ZERO⟩ ⟨ZERO, ONE⟩ h⟩

/-- C9: a degenerate zero-amplitude Qubit (reachable via `setState(ZERO,
ZERO)`, which skips normalization) measures deterministically to 1 for
every draw `r` with `0 ≤ r` (since `probabilityZero() = 0`), collapses to
the exact normalized one ket, and the normalization invariant is restored. -/
theorem claim_C9_zero_qubit_measures_one (r : ℝ) (hr : 0 ≤ r) :
    Qubit.setState ZERO ZERO = ⟨ZERO, ZERO⟩ ∧
      Qubit.measure ⟨ZERO, ZERO⟩ r = (1, ⟨ZERO, ONE⟩) ∧
      (Qubit.measure ⟨ZERO, ZERO⟩ r).2.probabilityZero
        + (Qubit.measure ⟨ZERO, ZERO⟩ r).2.probabilityOne = 1 := by
  have hset : Qubit.setState ZERO ZERO = ⟨ZERO, ZERO⟩ := by
    simp [Qubit.setState, Qubit.normalize, magnitude_sq_zero, Real.sqrt_zero]
  have hp0 : Qubit.probabilityZero ⟨ZERO, ZERO⟩ = 0 := by
    simp only [Qubit.probabilityZero]
    exact magnitude_sq_zero
  have hnlt : ¬ r < Qubit.probabilityZero ⟨ZERO, ZERO⟩ := by rw [hp0]; linarith
  have hmeas : Qubit.measure ⟨ZERO, ZERO⟩ r = (1, ⟨ZERO, ONE⟩) := by
    simp [Qubit.measure, hnlt, setState_zero_one]
  refine ⟨hset, hmeas, ?_⟩
  exact measure_normSq ⟨ZERO, ZERO⟩ r

/-- Witness for C9 at the concrete draw `r = 1/2`. -/
theorem claim_C9_zero_qubit_measures_one_witness :
    Qubit.measure ⟨ZERO, ZERO⟩ (1/2) = (1, ⟨ZERO, ONE⟩) :=
  (claim_C9_zero_qubit_measures_one (1/2) (by norm_num)).2.1

/-- C10: in the local model, neither `CNOTGate.apply` nor `CZGate.apply`
ever modifies the control qubit: the control component of the result is
the unchanged input control; only the target may change. -/
theorem claim_C10_control_never_modified (c t : Qubit) (cf tf : QubitF) :
    (cnotApply c t).1 = c ∧ (czApplyF cf tf).1 = cf := by
  constructor
  · unfold cnotApply
    split <;> rfl
  · unfold czApplyF
    split <;> rfl

/-- Counterexample to C4: `scale((1,0), (2,0))` with a `Complex` second
argument does not compute the standard complex product `(2,0)`; JavaScript
coerces the object scalar to NaN, so both components become NaN. -/
theorem claim_C4_counterexample :
    scaleF (toCF (complex 1 0)) (JSArg.obj (toCF (complex 2 0)))
      ≠ toCF (multiply (complex 1 0) (complex 2 0)) := by
  intro h
  have h1 : EF.nan = EF.fin ((1:ℝ) * 2 - 0 * 0) := congrArg CF.real h
  exact EF.noConfusion h1

/-- C6: constructing a StateVector with 16 qubits fails with the capacity
error; with 15 qubits it succeeds and produces the all-zeros ket:
amplitude 0 is `ONE` and the remaining `2^15 - 1` amplitudes are `ZERO`. -/
theorem claim_C6_capacity_boundary :
    mkStateVector 16
        = Except.error
            "StateVector simulator supports up to 15 qubits due to memory constraints" ∧
      mkStateVector 15 = Except.ok ⟨15, ONE :: List.replicate (2 ^ 15 - 1) ZERO⟩ := by
  constructor
  · rfl
  · have hdim : (1 <<< 15 : ℕ) = 2 ^ 15 := by
      rw [Nat.shiftLeft_eq, one_mul]
    have hsplit : (2:ℕ) ^ 15 = (2 ^ 15 - 1) + 1 := by norm_num
    simp only [mkStateVector]
    rw [if_neg (by norm_num)]
    rw [hdim, hsplit, List.replicate_succ, List.set_cons_zero]
    norm_num

/-- C7: `addGate` fails when the index-list length differs from the gate
arity or when any index is out of range, and otherwise appends the
operation while leaving the qubits unchanged; `applyTwoQubitGate` fails
whenever the two supplied qubit indices are identical. In this pure
embedding an error result carries no new state, matching the source, where
every throw happens before the first mutation. -/
theorem claim_C7_shape_validation_fails_fast (c : QuantumCircuit) (g g2 : QGate)
    (qs : List ℕ) (q1 q2 : ℕ) (s : SVF) :
    (qs.length ≠ g.numQubits → isErr (addGate c g qs) = true) ∧
      ((∃ i ∈ qs, c.qubits.length ≤ i) → isErr (addGate c g qs) = true) ∧
      (qs.length = g.numQubits → (∀ i ∈ qs, i < c.qubits.length) →
        addGate c g qs = Except.ok ⟨c.qubits, c.operations ++ [(g, qs)]⟩) ∧
      (q1 = q2 → isErr (applyTwoQubitGateF g2 q1 q2 s) = true) := by
  refine ⟨?_, ?_, ?_, ?_⟩
  · intro h
    simp [addGate, h, isErr]
  · rintro ⟨i, hi, hle⟩
    by_cases hlen : qs.length ≠ g.numQubits
    · simp [addGate, hlen, isErr]
    · have hany : qs.any (fun j => c.qubits.length ≤ j) = true := by
        rw [List.any_eq_true]
        exact ⟨i, hi, by simpa using hle⟩
      simp [addGate, hlen, hany, isErr]
  · intro h1 h2
    have hany : qs.any (fun j => c.qubits.length ≤ j) = false := by
      rw [List.any_eq_false]
      intro i hi
      simpa using not_le.mpr (h2 i hi)
    simp [addGate, h1, hany, isErr]
  · intro h
    subst h
    unfold applyTwoQubitGateF
    by_cases h1 : g2.numQubits ≠ 2
    · rw [if_pos h1]; rfl
    · rw [if_neg h1]
      by_cases h2 : q1 ≥ s.numQubits ∨ q1 ≥ s.numQubits
      · rw [if_pos h2]; rfl
      · rw [if_neg h2, if_pos rfl]; rfl

/-- Witness for C7 at concrete inputs: on a 2-qubit circuit, adding the
single-qubit `X` gate with two indices fails, with index 5 fails, with
index 0 succeeds and appends; `applyTwoQubitGate` with indices (1, 1)
fails. -/
theorem claim_C7_shape_validation_fails_fast_witness :
    isErr (addGate cEx XGate [0, 1]) = true ∧
      isErr (addGate cEx XGate [5]) = true ∧
      addGate cEx XGate [0] = Except.ok ⟨cEx.qubits, cEx.operations ++ [(XGate, [0])]⟩ ∧
      isErr (applyTwoQubitGateF XGate 1 1 ⟨2, List.replicate 4 ZEROF⟩) = true := by
  refine ⟨?_, ?_, ?_, ?_⟩
  · exact (claim_C7_shape_validation_fails_fast cEx XGate XGate [0, 1] 1 1
      ⟨2, List.replicate 4 ZEROF⟩).1 (by decide)
  · exact (claim_C7_shape_validation_fails_fast cEx XGate XGate [5] 1 1
      ⟨2, List.replicate 4 ZEROF⟩).2.1 ⟨5, by decide, by decide⟩
  · exact (claim_C7_shape_validation_fails_fast cEx XGate XGate [0] 1 1
      ⟨2, List.replicate 4 ZEROF⟩).2.2.1 (by decide) (by decide)
  · exact (claim_C7_shape_validation_fails_fast cEx XGate XGate [0] 1 1
      ⟨2, List.replicate 4 ZEROF⟩).2.2.2 rfl

/-- C3 evaluated at its failing input: a freshly constructed 1-qubit
StateVector holds the zero ket, but applying the Hadamard gate through
`applySingleQubitGate` leaves every amplitude NaN - the matrix elements are
passed to `scale` as its number scalar and coerce to NaN - and a second
application leaves the state NaN as well, so the round trip does not
return amplitude 0 to 1. -/
theorem claim_C3_h_twice_nan_not_roundtrip :
    mkStateVector 1 = Except.ok ⟨1, [ONE, ZERO]⟩ ∧
      applySingleQubitGateF HGate 0 (toSVF ⟨1, [ONE, ZERO]⟩)
        = Except.ok ⟨1, [⟨EF.nan, EF.nan⟩, ⟨EF.nan, EF.nan⟩]⟩ ∧
      applySingleQubitGateF HGate 0 ⟨1, [⟨EF.nan, EF.nan⟩, ⟨EF.nan, EF.nan⟩]⟩
        = Except.ok ⟨1, [⟨EF.nan, EF.nan⟩, ⟨EF.nan, EF.nan⟩]⟩ :=
  ⟨rfl, rfl, rfl⟩

/-- Helper: `magnitude(a) ** 2` on an injected finite complex value is the
finite sum of squared components (the intermediate square root squares
away). -/
theorem msqF_toCF (a b : ℝ) :
    msqF (toCF (complex a b)) = EF.fin (a * a + b * b) := by
  have h : (0:ℝ) ≤ a * a + b * b := add_nonneg (mul_self_nonneg a) (mul_self_nonneg b)
  simp only [msqF, magnitudeF, toCF, complex, EF.mul, EF.add, EF.sqrt,
    if_neg (not_lt.mpr h)]
  rw [Real.mul_self_sqrt h]

/-- Helper: IEEE addition of two finite values. -/
theorem EF.add_fin (x y : ℝ) : EF.add (EF.fin x) (EF.fin y) = EF.fin (x + y) := rfl

/-- Helper: IEEE comparison of two finite values. -/
theorem EF.ltb_fin (x y : ℝ) : EF.ltb (EF.fin x) (EF.fin y) = decide (x < y) := rfl

/-- Helper: IEEE square root of positive zero. -/
theorem EF.sqrt_fin_zero : EF.sqrt (EF.fin 0) = EF.fin 0 := by
  simp [EF.sqrt]

/-- Helper: IEEE division of one by positive zero is positive infinity. -/
theorem EF.div_one_fin_zero : EF.div (EF.fin 1) (EF.fin 0) = EF.pinf := by
  norm_num [EF.div]

/-- Helper: scaling the zero amplitude by the number `+inf` produces NaN in
both components (IEEE `0 * inf = NaN`). -/
theorem scaleF_zero_num_pinf :
    scaleF (toCF (complex 0 0)) (JSArg.num EF.pinf) = ⟨EF.nan, EF.nan⟩ := by
  norm_num [scaleF, toNumber, toCF, complex, EF.mul]

/-- C1 evaluated at its failing input: the state with amplitudes
`[0, 1 - 1e-11]` passes the `setState` normalization tolerance, yet
measuring qubit 0 with draw `r = 1 - 1e-11` selects outcome 0, whose
surviving probability mass is exactly zero; the unguarded rescaling by
`1 / Math.sqrt(0) = +inf` then turns every amplitude into NaN. -/
theorem claim_C1_measure_zero_mass_nan :
    SV.setState ⟨1, [ONE, ZERO]⟩ [complex 0 0, complex (1 - 1e-11) 0]
        = Except.ok ⟨1, [complex 0 0, complex (1 - 1e-11) 0]⟩ ∧
      measureF ⟨1, [toCF (complex 0 0), toCF (complex (1 - 1e-11) 0)]⟩ 0 (1 - 1e-11)
        = Except.ok (0, ⟨1, [⟨EF.nan, EF.nan⟩, ⟨EF.nan, EF.nan⟩]⟩) := by
  constructor
  · have hns : normSum [complex 0 0, complex (1 - 1e-11) 0] = (1 - 1e-11) ^ 2 := by
      simp [normSum, magnitude_sq, complex]
    have hcond : ¬ (|normSum [complex 0 0, complex (1 - 1e-11) 0] - 1| > 1e-10) := by
      rw [hns, gt_iff_lt, not_lt, abs_le]
      norm_num
    simp only [SV.setState, SV.dimension]
    rw [if_neg (by decide :
        ¬ (([complex 0 0, complex (1 - 1e-11) 0].length) ≠ 1 <<< 1)), if_neg hcond]
  · have hlt : ¬ ((1 - 1e-11 : ℝ) < 0 + ((1 - 1e-11) * (1 - 1e-11) + 0 * 0)) := by
      norm_num
    have hdec : decide ((1 - 1e-11 : ℝ) < 0 + ((1 - 1e-11) * (1 - 1e-11) + 0 * 0)) = false :=
      decide_eq_false hlt
    simp only [measureF, SVF.dimension]
    rw [if_neg (by decide : ¬ ((0:ℕ) ≥ 1))]
    simp only [show (1 <<< 1 : ℕ) = 2 from rfl, show List.range 2 = [0, 1] from rfl,
      List.foldl, List.map,
      show [toCF (complex 0 0), toCF (complex (1 - 1e-11) 0)].getD 0 ZEROF
        = toCF (complex 0 0) from rfl,
      show [toCF (complex 0 0), toCF (complex (1 - 1e-11) 0)].getD 1 ZEROF
        = toCF (complex (1 - 1e-11) 0) from rfl,
      show bitAt 0 0 = 0 from rfl, show bitAt 1 0 = 1 from rfl,
      show ZEROF = toCF (complex 0 0) from rfl]
    norm_num [msqF_toCF, EF.add_fin, EF.ltb_fin, hdec, EF.sqrt_fin_zero,
      EF.div_one_fin_zero, scaleF_zero_num_pinf]

/-- Helper: scaling the zero amplitude is the zero amplitude. -/
theorem scale_zero (t : ℝ) : scale ZERO t = ZERO := by
  simp [scale, ZERO, complex]

/-- Helper: reading an in-range slot of an array built by mapping over
`List.range`. -/
theorem getD_map_range (f : ℕ → Complex) (n i : ℕ) (h : i < n) (d : Complex) :
    ((List.range n).map f).getD i d = f i := by
  have hlen : i < ((List.range n).map f).length := by simpa using h
  rw [List.getD_eq_getElem _ _ hlen]
  simp

/-- Helper: the one-probability of a state collapsed onto outcome 1 is the
rescaled surviving mass. -/
theorem collapse_sum_one (amps : List Complex) (q dim : ℕ) (inv : ℝ) :
    (∑ i ∈ Finset.range dim, if bitAt i q = 1 then
        magnitude (((List.range dim).map (fun j =>
          scale (if bitAt j q = 1 then amps.getD j ZERO else ZERO) inv)).getD i ZERO) ^ 2
      else 0)
    = inv ^ 2 * ∑ i ∈ Finset.range dim,
        (if bitAt i q = 1 then magnitude (amps.getD i ZERO) ^ 2 else 0) := by
  rw [Finset.mul_sum]
  refine Finset.sum_congr rfl ?_
  intro i hi
  have hilt : i < dim := Finset.mem_range.mp hi
  rw [getD_map_range _ _ _ hilt]
  by_cases hb : bitAt i q = 1
  · rw [if_pos hb, if_pos hb, if_pos hb, magnitude_sq_scale]
  · rw [if_neg hb, if_neg hb, mul_zero]

/-- Helper: the one-probability of a state collapsed onto outcome 0 is
exactly zero (every surviving amplitude has bit 0 at the measured qubit). -/
theorem collapse_sum_zero (amps : List Complex) (q dim : ℕ) (inv : ℝ) :
    (∑ i ∈ Finset.range dim, if bitAt i q = 1 then
        magnitude (((List.range dim).map (fun j =>
          scale (if bitAt j q = 0 then amps.getD j ZERO else ZERO) inv)).getD i ZERO) ^ 2
      else 0) = 0 := by
  refine Finset.sum_eq_zero ?_
  intro i hi
  have hilt : i < dim := Finset.mem_range.mp hi
  rw [getD_map_range _ _ _ hilt]
  by_cases hb : bitAt i q = 1
  · rw [if_pos hb, if_neg (by simp [hb]), scale_zero, magnitude_sq_zero]
  · rw [if_neg hb]

/-- Helper: evaluation rule for `rnd` from an explicit exponent bracket and
significand bounds. -/
theorem rnd_eq_of (x : ℝ) (e N : ℤ) (h1 : (2:ℝ) ^ e ≤ x) (h2 : x < (2:ℝ) ^ (e + 1))
    (h3 : (N:ℝ) - 1/2 ≤ x * (2:ℝ) ^ ((52:ℤ) - e))
    (h4 : x * (2:ℝ) ^ ((52:ℤ) - e) < (N:ℝ) + 1/2) :
    rnd x = (N:ℝ) * (2:ℝ) ^ (e - (52:ℤ)) := by
  have hx : 0 < x := lt_of_lt_of_le (zpow_pos (by norm_num) e) h1
  have hle : e ≤ Int.log 2 x := by
    rw [← Int.zpow_le_iff_le_log (by norm_num) hx]
    exact_mod_cast h1
  have hlt : Int.log 2 x < e + 1 := by
    rw [← Int.lt_zpow_iff_log_lt (by norm_num) hx]
    exact_mod_cast h2
  have hlog : Int.log 2 x = e := by omega
  have hround : round (x * (2:ℝ) ^ ((52:ℤ) - e)) = N := by
    rw [round_eq, Int.floor_eq_iff]
    constructor
    · linarith
    · linarith
  unfold rnd
  rw [hlog, hround]

/-- Helper: `rnd` fixes every value whose significand at its own exponent
is an integer (an exactly representable double). -/
theorem rnd_eq_self (x : ℝ) (e N : ℤ) (h1 : (2:ℝ) ^ e ≤ x) (h2 : x < (2:ℝ) ^ (e + 1))
    (h5 : x * (2:ℝ) ^ ((52:ℤ) - e) = (N:ℝ)) : rnd x = x := by
  have h := rnd_eq_of x e N h1 h2 (by rw [h5]; linarith) (by rw [h5]; linarith)
  rw [h, ← h5, mul_assoc, ← zpow_add₀ (two_ne_zero : (2:ℝ) ≠ 0),
    show (52:ℤ) - e + (e - 52) = 0 from by ring, zpow_zero, mul_one]

/-- Helper: rounding of zero. -/
theorem rnd_zero : rnd 0 = 0 := by
  unfold rnd
  simp

/-- Helper: `1/4` is exactly representable. -/
theorem rnd_quarter : rnd (1/4 : ℝ) = 1/4 :=
  rnd_eq_self _ (-2) 4503599627370496 (by norm_num) (by norm_num) (by norm_num)

/-- Helper: `1/2` is exactly representable. -/
theorem rnd_half : rnd (1/2 : ℝ) = 1/2 :=
  rnd_eq_self _ (-1) 4503599627370496 (by norm_num) (by norm_num) (by norm_num)

/-- Helper: the square root of `1/4` is exact. -/
theorem sqrt_quarter : Real.sqrt (1/4 : ℝ) = 1/2 := by
  rw [show (1/4 : ℝ) = (1/2) ^ 2 from by norm_num,
    Real.sqrt_sq (by norm_num : (0:ℝ) ≤ 1/2)]

/-- Helper: `Math.sqrt(0.5)` rounds to the double `6369051672525773 * 2^-53`. -/
theorem rnd_sqrt_half :
    rnd (Real.sqrt (1/2)) = 6369051672525773 / 9007199254740992 := by
  have h1 : (2:ℝ) ^ (-1 : ℤ) ≤ Real.sqrt (1/2) := by
    rw [show ((2:ℝ) ^ (-1 : ℤ)) = 1/2 from by norm_num,
      Real.le_sqrt (by norm_num) (by norm_num)]
    norm_num
  have h2 : Real.sqrt (1/2) < (2:ℝ) ^ ((-1 : ℤ) + 1) := by
    rw [show ((-1 : ℤ) + 1) = 0 from by ring, zpow_zero,
      Real.sqrt_lt' (by norm_num)]
    norm_num
  have hlo : ((6369051672525773 : ℝ) - 1/2) / 2 ^ 53 ≤ Real.sqrt (1/2) := by
    rw [Real.le_sqrt (by norm_num) (by norm_num)]
    norm_num
  have hhi : Real.sqrt (1/2) < ((6369051672525773 : ℝ) + 1/2) / 2 ^ 53 := by
    rw [Real.sqrt_lt' (by norm_num)]
    norm_num
  have h := rnd_eq_of (Real.sqrt (1/2)) (-1) 6369051672525773 h1 h2
    (by
      rw [show ((52:ℤ) - (-1)) = 53 from by ring]
      have := (div_le_iff₀ (by norm_num : (0:ℝ) < 2 ^ 53)).mp hlo
      push_cast
      calc ((6369051672525773 : ℝ)) - 1/2 ≤ Real.sqrt (1/2) * 2 ^ 53 := this
        _ = Real.sqrt (1/2) * (2:ℝ) ^ (53:ℤ) := by norm_num)
    (by
      rw [show ((52:ℤ) - (-1)) = 53 from by ring]
      have := (lt_div_iff₀ (by norm_num : (0:ℝ) < 2 ^ 53)).mp hhi
      push_cast
      calc Real.sqrt (1/2) * (2:ℝ) ^ (53:ℤ) = Real.sqrt (1/2) * 2 ^ 53 := by norm_num
        _ < (6369051672525773 : ℝ) + 1/2 := by linarith)
  rw [h]
  norm_num

/-- Helper: `1 / Math.sqrt(0.5)` rounds to the double
`6369051672525772 * 2^-52`, one ulp below `Math.sqrt(2)`. -/
theorem rnd_inv_sqrt_half :
    rnd ((9007199254740992 : ℝ) / 6369051672525773)
      = 1592262918131443 / 1125899906842624 := by
  have h := rnd_eq_of ((9007199254740992 : ℝ) / 6369051672525773) 0 6369051672525772
    (by norm_num) (by norm_num)
    (by norm_num) (by norm_num)
  rw [h]
  norm_num

/-- Helper: halving `1/Math.sqrt(0.5)` is exact; the collapsed amplitude
`0.5 * 1.4142135623730949...` is the representable `1592262918131443 * 2^-51`. -/
theorem rnd_c_fix :
    rnd ((1592262918131443 : ℝ) / 2251799813685248)
      = 1592262918131443 / 2251799813685248 :=
  rnd_eq_self _ (-1) 6369051672525772 (by norm_num) (by norm_num) (by norm_num)

/-- Helper: squaring the collapsed amplitude rounds to
`4503599627370495 * 2^-53 = (1 - 2^-52) / 2`, one ulp below `1/2`. -/
theorem rnd_c_sq :
    rnd ((2535301200456458353478625262249 : ℝ) / 5070602400912917605986812821504)
      = 4503599627370495 / 9007199254740992 := by
  have h := rnd_eq_of
    ((2535301200456458353478625262249 : ℝ) / 5070602400912917605986812821504)
    (-2) 9007199254740990 (by norm_num) (by norm_num) (by norm_num) (by norm_num)
  rw [h]
  norm_num

/-- Helper: `4503599627370495 * 2^-53` is exactly representable. -/
theorem rnd_t_fix :
    rnd ((4503599627370495 : ℝ) / 9007199254740992)
      = 4503599627370495 / 9007199254740992 :=
  rnd_eq_self _ (-2) 9007199254740990 (by norm_num) (by norm_num) (by norm_num)

/-- Helper: `Math.sqrt` of the rounded square lands back on the collapsed
amplitude itself. -/
theorem rnd_sqrt_t :
    rnd (Real.sqrt ((4503599627370495 : ℝ) / 9007199254740992))
      = 1592262918131443 / 2251799813685248 := by
  have h1 : (2:ℝ) ^ (-1 : ℤ) ≤ Real.sqrt ((4503599627370495 : ℝ) / 9007199254740992) := by
    rw [show ((2:ℝ) ^ (-1 : ℤ)) = 1/2 from by norm_num,
      Real.le_sqrt (by norm_num) (by norm_num)]
    norm_num
  have h2 : Real.sqrt ((4503599627370495 : ℝ) / 9007199254740992) < (2:ℝ) ^ ((-1 : ℤ) + 1) := by
    rw [show ((-1 : ℤ) + 1) = 0 from by ring, zpow_zero, Real.sqrt_lt' (by norm_num)]
    norm_num
  have hlo : ((6369051672525772 : ℝ) - 1/2) / 2 ^ 53
      ≤ Real.sqrt ((4503599627370495 : ℝ) / 9007199254740992) := by
    rw [Real.le_sqrt (by norm_num) (by norm_num)]
    norm_num
  have hhi : Real.sqrt ((4503599627370495 : ℝ) / 9007199254740992)
      < ((6369051672525772 : ℝ) + 1/2) / 2 ^ 53 := by
    rw [Real.sqrt_lt' (by norm_num)]
    norm_num
  have h := rnd_eq_of (Real.sqrt ((4503599627370495 : ℝ) / 9007199254740992))
    (-1) 6369051672525772 h1 h2
    (by
      rw [show ((52:ℤ) - (-1)) = 53 from by ring]
      have := (div_le_iff₀ (by norm_num : (0:ℝ) < 2 ^ 53)).mp hlo
      push_cast
      calc ((6369051672525772 : ℝ)) - 1/2
          ≤ Real.sqrt ((4503599627370495 : ℝ) / 9007199254740992) * 2 ^ 53 := this
        _ = Real.sqrt ((4503599627370495 : ℝ) / 9007199254740992) * (2:ℝ) ^ (53:ℤ) := by
            norm_num)
    (by
      rw [show ((52:ℤ) - (-1)) = 53 from by ring]
      have := (lt_div_iff₀ (by norm_num : (0:ℝ) < 2 ^ 53)).mp hhi
      push_cast
      calc Real.sqrt ((4503599627370495 : ℝ) / 9007199254740992) * (2:ℝ) ^ (53:ℤ)
          = Real.sqrt ((4503599627370495 : ℝ) / 9007199254740992) * 2 ^ 53 := by norm_num
        _ < (6369051672525772 : ℝ) + 1/2 := by linarith)
  rw [h]
  norm_num

/-- Helper: the doubled rounded square, `1 - 2^-52`, is exactly
representable: the accumulated one-probability after the collapse. -/
theorem rnd_P_fix :
    rnd ((4503599627370495 : ℝ) / 4503599627370496)
      = 4503599627370495 / 4503599627370496 :=
  rnd_eq_self _ (-1) 9007199254740990 (by norm_num) (by norm_num) (by norm_num)

/-- Helper: `magnitude(0.5) ** 2` computes exactly `1/4` in binary64. -/
theorem msqFP_half : msqFP (complex (1/2) 0) = 1/4 := by
  simp only [msqFP, magnitudeFP, complex]
  rw [show ((1/2 : ℝ) * (1/2)) = 1/4 from by norm_num, rnd_quarter,
    show ((0:ℝ) * 0) = 0 from by norm_num, rnd_zero,
    show ((1/4 : ℝ) + 0) = 1/4 from by norm_num, rnd_quarter, sqrt_quarter, rnd_half,
    show ((1/2 : ℝ) * (1/2)) = 1/4 from by norm_num, rnd_quarter]

/-- Helper: `magnitude(0) ** 2` is exactly zero in binary64. -/
theorem msqFP_zero : msqFP ⟨0, 0⟩ = 0 := by
  simp only [msqFP, magnitudeFP]
  rw [show ((0:ℝ) * 0) = 0 from by norm_num, rnd_zero,
    show ((0:ℝ) + 0) = 0 from by norm_num, rnd_zero, Real.sqrt_zero, rnd_zero,
    show ((0:ℝ) * 0) = 0 from by norm_num, rnd_zero]

/-- Helper: the squared magnitude of the collapsed amplitude
`0.5 / Math.sqrt(0.5)` computes to `(1 - 2^-52) / 2` in binary64, one ulp
below `1/2`. -/
theorem msqFP_c :
    msqFP ⟨1592262918131443/2251799813685248, 0⟩
      = 4503599627370495 / 9007199254740992 := by
  simp only [msqFP, magnitudeFP]
  rw [show ((1592262918131443 : ℝ)/2251799813685248 * (1592262918131443/2251799813685248))
        = 2535301200456458353478625262249 / 5070602400912917605986812821504 from by
      norm_num,
    rnd_c_sq, show ((0:ℝ) * 0) = 0 from by norm_num, rnd_zero,
    show ((4503599627370495 : ℝ)/9007199254740992 + 0)
        = 4503599627370495/9007199254740992 from by norm_num,
    rnd_t_fix, rnd_sqrt_t,
    show ((1592262918131443 : ℝ)/2251799813685248 * (1592262918131443/2251799813685248))
        = 2535301200456458353478625262249 / 5070602400912917605986812821504 from by
      norm_num,
    rnd_c_sq]

/-- Counterexample to C5, at the binary64 level: the exactly normalized
2-qubit state with all four amplitudes `0.5` is accepted by `setState`;
measuring qubit 0 with draw `1/4` returns outcome 1 and renormalizes each
surviving amplitude to `0.5 / Math.sqrt(0.5)`; re-measuring the collapsed
state, the one-probability computes to `1 - 2^-52` (not 1), so the second
measurement with the in-range draw `1 - 2^-53` (the largest double below
1, written here as its exact fraction) returns 0, not 1. -/
theorem claim_C5_counterexample :
    SV.setState ⟨2, [ONE, ZERO, ZERO, ZERO]⟩
        [complex (1/2) 0, complex (1/2) 0, complex (1/2) 0, complex (1/2) 0]
        = Except.ok ⟨2, [complex (1/2) 0, complex (1/2) 0, complex (1/2) 0, complex (1/2) 0]⟩ ∧
      measureFP ⟨2, [complex (1/2) 0, complex (1/2) 0, complex (1/2) 0, complex (1/2) 0]⟩
          0 (1/4)
        = Except.ok (1, ⟨2, [⟨0, 0⟩, ⟨1592262918131443/2251799813685248, 0⟩,
            ⟨0, 0⟩, ⟨1592262918131443/2251799813685248, 0⟩]⟩) ∧
      Except.map Prod.fst
          (measureFP ⟨2, [⟨0, 0⟩, ⟨1592262918131443/2251799813685248, 0⟩,
              ⟨0, 0⟩, ⟨1592262918131443/2251799813685248, 0⟩]⟩
            0 (9007199254740991/9007199254740992))
        = Except.ok 0 := by
  refine ⟨?_, ?_, ?_⟩
  · have hns : normSum [complex (1/2) 0, complex (1/2) 0, complex (1/2) 0, complex (1/2) 0]
        = 1 := by
      simp [normSum, magnitude_sq, complex]
      norm_num
    have hcond : ¬ (|normSum [complex (1/2) 0, complex (1/2) 0, complex (1/2) 0,
        complex (1/2) 0] - 1| > 1e-10) := by
      rw [hns]
      norm_num
    simp only [SV.setState, SV.dimension]
    rw [if_neg (by decide :
        ¬ (([complex (1/2) 0, complex (1/2) 0, complex (1/2) 0,
          complex (1/2) 0].length) ≠ 1 <<< 2)), if_neg hcond]
  · simp only [measureFP, SV.dimension]
    rw [if_neg (by decide : ¬ ((0:ℕ) ≥ 2))]
    simp only [show (1 <<< 2 : ℕ) = 4 from rfl, show List.range 4 = [0, 1, 2, 3] from rfl,
      List.foldl, List.map,
      show ∀ d, [complex (1/2) 0, complex (1/2) 0, complex (1/2) 0,
        complex (1/2) 0].getD 0 d = complex (1/2) 0 from fun _ => rfl,
      show ∀ d, [complex (1/2) 0, complex (1/2) 0, complex (1/2) 0,
        complex (1/2) 0].getD 1 d = complex (1/2) 0 from fun _ => rfl,
      show ∀ d, [complex (1/2) 0, complex (1/2) 0, complex (1/2) 0,
        complex (1/2) 0].getD 2 d = complex (1/2) 0 from fun _ => rfl,
      show ∀ d, [complex (1/2) 0, complex (1/2) 0, complex (1/2) 0,
        complex (1/2) 0].getD 3 d = complex (1/2) 0 from fun _ => rfl,
      show bitAt 0 0 = 0 from rfl, show bitAt 1 0 = 1 from rfl,
      show bitAt 2 0 = 0 from rfl, show bitAt 3 0 = 1 from rfl]
    simp only [if_neg (show ¬ ((0:ℕ) = 1) from by decide), if_pos (show (1:ℕ) = 1 from rfl),
      if_true, if_false]
    rw [msqFP_half]
    rw [show ((0:ℝ) + 1/4) = 1/4 from by norm_num, rnd_quarter,
      show ((1/4 : ℝ) + 1/4) = 1/2 from by norm_num, rnd_half]
    simp only [if_pos (show (1/4 : ℝ) < 1/2 from by norm_num)]
    simp only [if_neg (show ¬ ((0:ℕ) = 1) from by decide), if_pos (show (1:ℕ) = 1 from rfl),
      if_true, if_false]
    rw [show ((0:ℝ) + 1/4) = 1/4 from by norm_num, rnd_quarter,
      show ((1/4 : ℝ) + 1/4) = 1/2 from by norm_num, rnd_half]
    rw [rnd_sqrt_half,
      show ((1:ℝ) / (6369051672525773 / 9007199254740992))
          = 9007199254740992 / 6369051672525773 from by norm_num,
      rnd_inv_sqrt_half]
    simp only [scaleFP, ZERO, complex]
    rw [show ((1/2 : ℝ) * (1592262918131443/1125899906842624))
          = 1592262918131443/2251799813685248 from by norm_num,
      rnd_c_fix,
      show ((0:ℝ) * (1592262918131443/1125899906842624)) = 0 from by norm_num,
      rnd_zero]
  · simp only [measureFP, SV.dimension]
    rw [if_neg (by decide : ¬ ((0:ℕ) ≥ 2))]
    simp only [show (1 <<< 2 : ℕ) = 4 from rfl, show List.range 4 = [0, 1, 2, 3] from rfl,
      List.foldl, List.map,
      show ∀ d, [(⟨0, 0⟩ : Complex), ⟨1592262918131443/2251799813685248, 0⟩,
        ⟨0, 0⟩, ⟨1592262918131443/2251799813685248, 0⟩].getD 0 d = ⟨0, 0⟩ from fun _ => rfl,
      show ∀ d, [(⟨0, 0⟩ : Complex), ⟨1592262918131443/2251799813685248, 0⟩,
        ⟨0, 0⟩, ⟨1592262918131443/2251799813685248, 0⟩].getD 1 d
          = ⟨1592262918131443/2251799813685248, 0⟩ from fun _ => rfl,
      show ∀ d, [(⟨0, 0⟩ : Complex), ⟨1592262918131443/2251799813685248, 0⟩,
        ⟨0, 0⟩, ⟨1592262918131443/2251799813685248, 0⟩].getD 2 d = ⟨0, 0⟩ from fun _ => rfl,
      show ∀ d, [(⟨0, 0⟩ : Complex), ⟨1592262918131443/2251799813685248, 0⟩,
        ⟨0, 0⟩, ⟨1592262918131443/2251799813685248, 0⟩].getD 3 d
          = ⟨1592262918131443/2251799813685248, 0⟩ from fun _ => rfl,
      show bitAt 0 0 = 0 from rfl, show bitAt 1 0 = 1 from rfl,
      show bitAt 2 0 = 0 from rfl, show bitAt 3 0 = 1 from rfl]
    simp only [if_neg (show ¬ ((0:ℕ) = 1) from by decide), if_pos (show (1:ℕ) = 1 from rfl),
      if_true, if_false]
    rw [msqFP_c, msqFP_zero]
    rw [show ((0:ℝ) + 4503599627370495/9007199254740992)
          = 4503599627370495/9007199254740992 from by norm_num,
      rnd_t_fix,
      show ((4503599627370495 : ℝ)/9007199254740992 + 4503599627370495/9007199254740992)
          = 4503599627370495/4503599627370496 from by norm_num,
      rnd_P_fix]
    rw [show ((0:ℝ) + 0) = 0 from by norm_num, rnd_zero]
    simp only [if_neg (show ¬ ((9007199254740991 : ℝ)/9007199254740992
        < 4503599627370495/4503599627370496) from by norm_num)]
    simp only [if_pos (show (0:ℕ) = 0 from rfl), if_neg (show ¬ ((1:ℕ) = 0) from by decide),
      if_true, if_false]
    rw [show ((0:ℝ) + 0) = 0 from by norm_num, rnd_zero]
    rw [Real.sqrt_zero, rnd_zero, div_zero, rnd_zero]
    simp only [scaleFP, ZERO, complex]
    rw [show ((0:ℝ) * 0) = 0 from by norm_num, rnd_zero]
    rfl

/-- C5 as amended: `Qubit.measure` collapse repeats - after outcome b a
second immediate measurement returns b for every subsequent draw in
`[0, 1)`, and the collapse stores exact basis amplitudes, so no rounding
is involved even in IEEE doubles; `StateVector.measure` repeats its
outcome under exact-real renormalization, where the collapsed
one-probability is exactly 1 (outcome 1) or exactly 0 (outcome 0). The
exactness of that renormalization is precisely where the original claim
fails in binary64: the re-measured mass can round to `1 - 2^-52`, and a
top-of-range second draw then flips the outcome (see the counterexample). -/
theorem claim_C5_measurement_collapse (qb : Qubit) (s : SV) (q : ℕ) (r1 r2 : ℝ)
    (hq : q < s.numQubits) (hr1 : 0 ≤ r1) (_hr1b : r1 < 1) (hr2 : 0 ≤ r2) (hr2b : r2 < 1) :
    ((qb.measure r1).2.measure r2).1 = (qb.measure r1).1 ∧
      ∃ b s1, s.measure q r1 = Except.ok (b, s1) ∧
        Except.map Prod.fst (s1.measure q r2) = Except.ok b := by
  constructor
  · by_cases h : r1 < qb.probabilityZero
    · have h1 : qb.measure r1 = (0, ⟨ONE, ZERO⟩) := by
        simp [Qubit.measure, if_pos h, setState_one_zero]
      have hp : Qubit.probabilityZero ⟨ONE, ZERO⟩ = 1 := by
        simp [Qubit.probabilityZero, magnitude_sq, ONE, complex]
      rw [h1]
      simp [Qubit.measure, hp, hr2b]
    · have h1 : qb.measure r1 = (1, ⟨ZERO, ONE⟩) := by
        simp [Qubit.measure, if_neg h, setState_zero_one]
      have hp : Qubit.probabilityZero ⟨ZERO, ONE⟩ = 0 := by
        simp only [Qubit.probabilityZero]
        exact magnitude_sq_zero
      rw [h1]
      simp [Qubit.measure, hp, not_lt.mpr hr2]
  · have hnotge : ¬ (q ≥ s.numQubits) := not_le.mpr hq
    by_cases hb : r1 < ∑ i ∈ Finset.range (1 <<< s.numQubits),
        (if bitAt i q = 1 then magnitude (s.amps.getD i ZERO) ^ 2 else 0)
    · have hP0 : (0:ℝ) < ∑ i ∈ Finset.range (1 <<< s.numQubits),
          (if bitAt i q = 1 then magnitude (s.amps.getD i ZERO) ^ 2 else 0) :=
        lt_of_le_of_lt hr1 hb
      have hm1 : s.measure q r1 = Except.ok (1, ⟨s.numQubits,
          (List.range (1 <<< s.numQubits)).map (fun j =>
            scale (if bitAt j q = 1 then s.amps.getD j ZERO else ZERO)
              ((1:ℝ) / Real.sqrt (∑ k ∈ Finset.range (1 <<< s.numQubits),
                (if bitAt k q = 1 then magnitude (s.amps.getD k ZERO) ^ 2 else 0))))⟩) := by
        simp only [SV.measure, SV.dimension, if_neg hnotge]
        simp only [if_pos hb]
      have hp1 : (∑ i ∈ Finset.range (1 <<< s.numQubits), if bitAt i q = 1 then
          magnitude (((List.range (1 <<< s.numQubits)).map (fun j =>
            scale (if bitAt j q = 1 then s.amps.getD j ZERO else ZERO)
              ((1:ℝ) / Real.sqrt (∑ k ∈ Finset.range (1 <<< s.numQubits),
                (if bitAt k q = 1 then magnitude (s.amps.getD k ZERO) ^ 2
                  else 0))))).getD i ZERO) ^ 2
        else 0) = 1 := by
        rw [collapse_sum_one]
        rw [div_pow, one_pow, Real.sq_sqrt hP0.le]
        exact one_div_mul_cancel (ne_of_gt hP0)
      refine ⟨1, _, hm1, ?_⟩
      simp only [SV.measure, SV.dimension]
      simp only [if_neg hnotge, hp1, if_pos hr2b]
      rfl
    · have hm1 : s.measure q r1 = Except.ok (0, ⟨s.numQubits,
          (List.range (1 <<< s.numQubits)).map (fun j =>
            scale (if bitAt j q = 0 then s.amps.getD j ZERO else ZERO)
              ((1:ℝ) / Real.sqrt (∑ k ∈ Finset.range (1 <<< s.numQubits),
                (if bitAt k q = 0 then magnitude (s.amps.getD k ZERO) ^ 2 else 0))))⟩) := by
        simp only [SV.measure, SV.dimension, if_neg hnotge]
        simp only [if_neg hb]
      have hp0 : (∑ i ∈ Finset.range (1 <<< s.numQubits), if bitAt i q = 1 then
          magnitude (((List.range (1 <<< s.numQubits)).map (fun j =>
            scale (if bitAt j q = 0 then s.amps.getD j ZERO else ZERO)
              ((1:ℝ) / Real.sqrt (∑ k ∈ Finset.range (1 <<< s.numQubits),
                (if bitAt k q = 0 then magnitude (s.amps.getD k ZERO) ^ 2
                  else 0))))).getD i ZERO) ^ 2
        else 0) = 0 :=
        collapse_sum_zero s.amps q (1 <<< s.numQubits) _
      refine ⟨0, _, hm1, ?_⟩
      simp only [SV.measure, SV.dimension]
      simp only [if_neg hnotge, hp0, if_neg (not_lt.mpr hr2)]
      rfl

/-- Witness for C5 at concrete inputs: the zero-ket qubit and the 1-qubit
zero-ket StateVector, with draws 1/2 then 1/3. -/
theorem claim_C5_measurement_collapse_witness :
    ((Qubit.measure ⟨ONE, ZERO⟩ (1/2)).2.measure (1/3)).1
        = (Qubit.measure ⟨ONE, ZERO⟩ (1/2)).1 ∧
      ∃ b s1, SV.measure ⟨1, [ONE, ZERO]⟩ 0 (1/2) = Except.ok (b, s1) ∧
        Except.map Prod.fst (SV.measure s1 0 (1/3)) = Except.ok b :=
  claim_C5_measurement_collapse ⟨ONE, ZERO⟩ ⟨1, [ONE, ZERO]⟩ 0 (1/2) (1/3)
    (by decide) (by norm_num) (by norm_num) (by norm_num) (by norm_num)

/-- C4 as amended: `scale` scales by a real scalar componentwise, as its
declared signature says; when the StateVector gate-application code passes
a `Complex` matrix element as the scalar instead, dynamic coercion makes
both components NaN rather than the standard complex product. -/
theorem claim_C4_amended_scale_semantics (a : Complex) (s : ℝ) (b : CF) :
    scale a s = complex (a.real * s) (a.imag * s) ∧
      scaleF (toCF a) (JSArg.num (EF.fin s)) = toCF (scale a s) ∧
      scaleF (toCF a) (JSArg.obj b) = ⟨EF.nan, EF.nan⟩ := by
  refine ⟨rfl, ?_, ?_⟩ <;> rfl

end QSTP
